import Mathlib

/-!
A formal model of the live-data synchronization subsystem of the
crypto-price-tracker repository: the `updateAsset` reducer of the crypto
slice (rolling 7-element sparkline merge), and the `BinanceWebSocketService`
(symbol registry, inbound frame handling, connection lifecycle with
reconnection on unclean close).  Definitions follow the TypeScript source;
theorems settle the specification's testable properties.
-/

/-- A JavaScript number: either NaN or an exact rational value.  The code
paths modelled here obtain numbers only from decimal parsing or from the
snapshot, and never perform arithmetic on them, so rationals model the float
values exactly. -/
inductive JsNum where
  | nan : JsNum
  | num : ℚ → JsNum
  deriving DecidableEq

/-- Truthiness of a JavaScript number: NaN and 0 are falsy, every other value
is truthy. -/
def JsNum.truthy : JsNum → Bool
  | .nan => false
  | .num q => if q = 0 then false else true

/-- Truthiness of an optional numeric field: an absent field is undefined,
hence falsy; a present field is as truthy as its value. -/
def optNumTruthy : Option JsNum → Bool
  | none => false
  | some v => v.truthy

/-- Leading decimal digits of a character list, as digit values, together
with the rest of the list. -/
def takeDigits : List Char → List Nat × List Char
  | [] => ([], [])
  | c :: rest =>
    if c.isDigit then
      let (ds, r) := takeDigits rest
      ((c.toNat - 48) :: ds, r)
    else ([], c :: rest)

/-- Value of a digit list read in base 10. -/
def digitsToNat (ds : List Nat) : Nat :=
  ds.foldl (fun acc d => acc * 10 + d) 0

/-- Model of the JavaScript parseFloat builtin on plain decimal numerals:
optional leading whitespace, an optional sign, integer digits and an optional
fractional part; when no digit is found the result is NaN, as parseFloat
returns when the input has no numeric prefix.  (Exponent suffixes, which no
Binance ticker field uses, are not modelled and are simply left unconsumed.) -/
def parseFloat (s : String) : JsNum :=
  let cs := s.toList.dropWhile (fun c => c.isWhitespace)
  let (neg, cs1) :=
    match cs with
    | '-' :: r => (true, r)
    | '+' :: r => (false, r)
    | _ => (false, cs)
  let (ints, cs2) := takeDigits cs1
  let fracs :=
    match cs2 with
    | '.' :: r => (takeDigits r).1
    | _ => []
  if ints.length + fracs.length = 0 then JsNum.nan
  else
    let mag : Int := Int.ofNat (digitsToNat ints * 10 ^ fracs.length + digitsToNat fracs)
    JsNum.num (Rat.divInt (if neg then -mag else mag) (Int.ofNat (10 ^ fracs.length)))

/-- Fetch status of the asset snapshot, from the crypto slice's state type. -/
inductive FetchStatus where
  | idle : FetchStatus
  | loading : FetchStatus
  | succeeded : FetchStatus
  | failed : FetchStatus
  deriving DecidableEq

/-- An asset row, following the CryptoAsset interface of crypto-data.ts.
Numeric fields are JavaScript numbers; maxSupply may be null. -/
structure CryptoAsset where
  id : String
  name : String
  symbol : String
  logo : String
  price : JsNum
  percentChange1h : JsNum
  percentChange24h : JsNum
  percentChange7d : JsNum
  marketCap : JsNum
  volume24h : JsNum
  circulatingSupply : JsNum
  maxSupply : Option JsNum
  sparkline7d : List JsNum
  deriving DecidableEq

/-- The AssetUpdatePayload interface of the crypto slice: id is mandatory,
every other field optional (none models an absent property). -/
structure AssetUpdatePayload where
  id : String
  price : Option JsNum := none
  percentChange1h : Option JsNum := none
  percentChange24h : Option JsNum := none
  percentChange7d : Option JsNum := none
  volume24h : Option JsNum := none
  sparkline7d : Option (List JsNum) := none
  deriving DecidableEq

/-- The CryptoState of the crypto slice: the asset collection plus fetch
status and error (null and undefined are both modelled as none). -/
structure CryptoState where
  assets : List CryptoAsset
  status : FetchStatus
  error : Option String
  deriving DecidableEq

/-- Object spread of the payload over an asset, as in the reducer's
expression involving asset and payload spreads: properties present in the
payload overwrite the asset's, absent ones leave them untouched; id is always
present in the payload. -/
def applyPayload (a : CryptoAsset) (p : AssetUpdatePayload) : CryptoAsset :=
  { a with
    id := p.id
    price := p.price.getD a.price
    percentChange1h := p.percentChange1h.getD a.percentChange1h
    percentChange24h := p.percentChange24h.getD a.percentChange24h
    percentChange7d := p.percentChange7d.getD a.percentChange7d
    volume24h := p.volume24h.getD a.volume24h
    sparkline7d := p.sparkline7d.getD a.sparkline7d }

/-- Update of the matched asset, following the branch in the updateAsset
reducer: when the payload's price is truthy and no sparkline7d is supplied,
the new sparkline is currentSparkline.slice(1) with the payload price
appended (the guard makes the price present, so the getD default is never
used); otherwise the spread alone is applied. -/
def mergeAsset (a : CryptoAsset) (p : AssetUpdatePayload) : CryptoAsset :=
  if optNumTruthy p.price && p.sparkline7d.isNone then
    { applyPayload a p with
        sparkline7d := a.sparkline7d.drop 1 ++ [p.price.getD JsNum.nan] }
  else
    applyPayload a p

/-- The updateAsset reducer of the crypto slice: find the index of the asset
whose id equals the payload id (findIndex); when no asset matches the state
is unchanged; otherwise replace the asset at the found index by the merged
asset.  The inner none case is unreachable since findIdx? only returns
in-range indices. -/
def updateAsset (st : CryptoState) (p : AssetUpdatePayload) : CryptoState :=
  match st.assets.findIdx? (fun a => a.id == p.id) with
  | none => st
  | some i =>
    match st.assets[i]? with
    | none => st
    | some a => { st with assets := st.assets.set i (mergeAsset a p) }

/-- Model of the JavaScript toUpperCase on the ASCII symbols used here,
applied characterwise. -/
def jsToUpper (s : String) : String := String.mk (s.toList.map Char.toUpper)

/-- Model of the JavaScript toLowerCase on the ASCII symbols used here,
applied characterwise. -/
def jsToLower (s : String) : String := String.mk (s.toList.map Char.toLower)

/-- Insertion-ordered string map modelling the JavaScript Map used as
symbolToIdMap: set updates an existing key in place or appends a new entry. -/
def mapSet : List (String × String) → String → String → List (String × String)
  | [], k, v => [(k, v)]
  | (k', v') :: rest, k, v =>
    if k' = k then (k, v) :: rest else (k', v') :: mapSet rest k v

/-- Lookup in the modelled Map (keys are unique by construction of mapSet,
so first match suffices). -/
def mapGet : List (String × String) → String → Option String
  | [], _ => none
  | (k', v) :: rest, k => if k' = k then some v else mapGet rest k

/-- Registry construction performed inside start: for each asset, in order,
register the upper-cased Binance pair symbol (asset.symbol + "USDT") mapped
to the asset id, starting from the cleared map. -/
def buildRegistry (assets : List CryptoAsset) : List (String × String) :=
  assets.foldl (fun m a => mapSet m (jsToUpper (a.symbol ++ "USDT")) a.id) []

/-- mapBinanceSymbolToAssetId: case-insensitive resolution of an incoming
exchange symbol, by upper-casing it before the Map lookup. -/
def mapBinanceSymbolToAssetId (registry : List (String × String))
    (binanceSymbol : String) : Option String :=
  mapGet registry (jsToUpper binanceSymbol)

/-- Consumed fields of the Binance ticker payload.  The interface in
mock-socket.ts declares many further fields, but handleMessage reads only e,
s, c, P and q, so only those are modelled. -/
structure BinanceTickerData where
  e : String
  s : String
  c : String
  P : String
  q : String
  deriving DecidableEq

/-- Result of JSON.parse on an inbound frame: parsing may throw (malformed),
or yield an envelope whose data member may be absent or present.  The stream
member of the envelope is never read by handleMessage and is omitted. -/
inductive InboundFrame where
  | malformed : InboundFrame
  | parsed : Option BinanceTickerData → InboundFrame
  deriving DecidableEq

/-- handleMessage of BinanceWebSocketService: a malformed frame's parse error
is swallowed by the catch and nothing is emitted; on a parsed frame whose
data is present, whose event type is "24hrTicker" and whose symbol resolves
to a truthy asset id, exactly one update payload is dispatched, carrying id,
price, percentChange24h and volume24h (numeric parses of the c, P and q
fields) and nothing else; in every other case nothing is emitted.  The
falsy-string guard on the resolved id drops both an unresolved symbol
(undefined) and a resolution to the empty string.  The function is total:
no frame makes it throw. -/
def handleMessage (registry : List (String × String)) (frame : InboundFrame) :
    Option AssetUpdatePayload :=
  match frame with
  | .malformed => none
  | .parsed none => none
  | .parsed (some d) =>
    if d.e = "24hrTicker" then
      match mapBinanceSymbolToAssetId registry d.s with
      | none => none
      | some assetId =>
        if assetId = "" then none
        else
          some { id := assetId
                 price := some (parseFloat d.c)
                 percentChange24h := some (parseFloat d.P)
                 volume24h := some (parseFloat d.q) }
    else none

/-- Connection-lifecycle state of BinanceWebSocketService: whether a
transport handle is held, the cached asset list, the symbol registry, and
the delays in milliseconds of the reconnect callbacks currently scheduled
via setTimeout. -/
structure SvcState where
  ws : Bool
  initialAssets : List CryptoAsset
  symbolToIdMap : List (String × String)
  pending : List Nat
  deriving DecidableEq

/-- stop(): when a handle is held, its handlers are detached and the handle
dropped before close(1000) is requested; since onclose is nulled first,
handleClose never runs for an intentional stop, which is why this function
does not invoke it.  Afterwards the cached asset list is always cleared.
Scheduled timers are not cancelled: a pending reconnect still fires later,
but finds the asset list empty. -/
def stop (st : SvcState) : SvcState :=
  let st1 := if st.ws then { st with ws := false } else st
  { st1 with initialAssets := [] }

/-- Channel descriptor built inside start: one lower-cased pair channel per
asset, empty names filtered out, joined with "/". -/
def streamsDescriptor (assets : List CryptoAsset) : String :=
  String.intercalate "/"
    ((assets.map fun a => jsToLower a.symbol ++ "usdt@ticker").filter (fun s => s ≠ ""))

/-- start(assets): tear down any existing connection first; with an empty
asset list, warn and stay idle; otherwise cache a copy of the asset list and
rebuild the symbol registry from scratch, and when the stream descriptor is
non-empty open a new transport. -/
def start (assets : List CryptoAsset) (st : SvcState) : SvcState :=
  let st1 := if st.ws then stop st else st
  if assets.length = 0 then st1
  else
    let st2 := { st1 with initialAssets := assets, symbolToIdMap := buildRegistry assets }
    if streamsDescriptor assets = "" then st2
    else { st2 with ws := true }

/-- handleClose: clear the transport handle; on an unclean close with a
non-empty cached asset list, schedule exactly one reconnect after 5000
milliseconds.  The scheduled callback, when it later fires, re-reads the
cached asset list. -/
def handleClose (wasClean : Bool) (st : SvcState) : SvcState :=
  let st1 := { st with ws := false }
  if 0 < st1.initialAssets.length && !wasClean then
    { st1 with pending := st1.pending ++ [5000] }
  else st1

/-- Firing of the earliest scheduled reconnect callback: remove it from the
queue and run start on the asset list cached at fire time (the setTimeout
closure reads this.initialAssets when it runs, not when it was scheduled). -/
def fireReconnect (st : SvcState) : SvcState :=
  match st.pending with
  | [] => st
  | _ :: rest => start st.initialAssets { st with pending := rest }

/-- Concrete bitcoin asset used by the specification's scenario, with the
7-element sparkline [1, 2, 3, 4, 5, 6, 7]. -/
def btcAsset : CryptoAsset :=
  { id := "bitcoin"
    name := "Bitcoin"
    symbol := "BTC"
    logo := ""
    price := JsNum.num 7
    percentChange1h := JsNum.num 0
    percentChange24h := JsNum.num 0
    percentChange7d := JsNum.num 0
    marketCap := JsNum.num 0
    volume24h := JsNum.num 0
    circulatingSupply := JsNum.num 0
    maxSupply := none
    sparkline7d := [JsNum.num 1, JsNum.num 2, JsNum.num 3, JsNum.num 4,
                    JsNum.num 5, JsNum.num 6, JsNum.num 7] }

/-- Store state holding exactly the scenario's bitcoin asset. -/
def btcState : CryptoState :=
  { assets := [btcAsset], status := FetchStatus.succeeded, error := none }

/-- Degenerate asset whose id is the empty string, exercising the falsy
id guard of handleMessage. -/
def noIdAsset : CryptoAsset := { btcAsset with id := "" }

/-- Second asset carrying the same trading symbol "BTC" as the scenario
asset but a different id, exercising the Map.set overwrite. -/
def btc2Asset : CryptoAsset := { btcAsset with id := "bitcoin2" }

/-- The scenario's inbound frame: a well-formed combined-stream message with
event type "24hrTicker", symbol "BTCUSDT", last price "8", 24h percent
change "1.5" and quote volume "1000". -/
def btcTicker : BinanceTickerData :=
  { e := "24hrTicker", s := "BTCUSDT", c := "8", P := "1.5", q := "1000" }

/-- Auxiliary: an element read by getElem? together with a successful
findIdx? at the same index satisfies the search predicate. -/
theorem pred_of_findIdx?_getElem? {α : Type} {l : List α} {p : α → Bool} {i : Nat} {a : α}
    (hfind : l.findIdx? p = some i) (hget : l[i]? = some a) : p a = true := by
  obtain ⟨hlt, hp, -⟩ := List.findIdx?_eq_some_iff_getElem.mp hfind
  obtain ⟨hlt', hEq⟩ := List.getElem?_eq_some.mp hget
  rw [← hEq]
  exact hp

/-- Auxiliary: shape of updateAsset when an asset matches the payload id. -/
theorem updateAsset_found {st : CryptoState} {p : AssetUpdatePayload} {i : Nat}
    {a : CryptoAsset}
    (hfind : st.assets.findIdx? (fun b => b.id == p.id) = some i)
    (hget : st.assets[i]? = some a) :
    updateAsset st p = { st with assets := st.assets.set i (mergeAsset a p) } := by
  simp only [updateAsset, hfind, hget]

/-- Auxiliary: the matched position after updateAsset holds the merged asset. -/
theorem updateAsset_at_index {st : CryptoState} {p : AssetUpdatePayload} {i : Nat}
    {a : CryptoAsset}
    (hfind : st.assets.findIdx? (fun b => b.id == p.id) = some i)
    (hget : st.assets[i]? = some a) :
    (updateAsset st p).assets[i]? = some (mergeAsset a p) := by
  obtain ⟨hlt, -⟩ := List.getElem?_eq_some.mp hget
  rw [updateAsset_found hfind hget]
  exact List.getElem?_set_self hlt

/-- Auxiliary: exhaustive shape of updateAsset. -/
theorem updateAsset_cases (st : CryptoState) (p : AssetUpdatePayload) :
    updateAsset st p = st ∨
    ∃ i a, st.assets.findIdx? (fun b => b.id == p.id) = some i ∧
      st.assets[i]? = some a ∧
      updateAsset st p = { st with assets := st.assets.set i (mergeAsset a p) } := by
  cases h1 : st.assets.findIdx? (fun b => b.id == p.id) with
  | none => left; simp only [updateAsset, h1]
  | some i =>
    cases h2 : st.assets[i]? with
    | none => left; simp only [updateAsset, h1, h2]
    | some a =>
      right
      refine ⟨i, a, rfl, h2, ?_⟩
      simp only [updateAsset, h1, h2]

/-- Auxiliary: sparkline of the merged asset under a truthy price with no
explicit sparkline: FIFO shift. -/
theorem mergeAsset_sparkline_shift {a : CryptoAsset} {p : AssetUpdatePayload} {v : JsNum}
    (hp : p.price = some v) (hv : v.truthy = true) (hs : p.sparkline7d = none) :
    (mergeAsset a p).sparkline7d = a.sparkline7d.drop 1 ++ [v] := by
  simp [mergeAsset, optNumTruthy, hp, hv, hs]

/-- Auxiliary: sparkline of the merged asset under an explicit sparkline
field: verbatim replacement. -/
theorem mergeAsset_sparkline_replace {a : CryptoAsset} {p : AssetUpdatePayload}
    {l : List JsNum} (hs : p.sparkline7d = some l) :
    (mergeAsset a p).sparkline7d = l := by
  simp [mergeAsset, applyPayload, hs]

/-- C1 counterexample: with the scenario store (bitcoin, sparkline
[1, 2, 3, 4, 5, 6, 7]) and the price-only update price = 0, the reducer
leaves the sparkline unchanged instead of producing S[1:] + [0]: a price of
0 is falsy, so the shift branch is not taken. -/
theorem c1_counterexample :
    ((updateAsset btcState { id := "bitcoin", price := some (JsNum.num 0) }).assets.map
        (fun b => b.sparkline7d) = [btcAsset.sparkline7d]) ∧
    btcAsset.sparkline7d ≠ btcAsset.sparkline7d.drop 1 ++ [JsNum.num 0] := by
  exact ⟨by decide, by decide⟩

/-- C1 (amended): for every asset in the store whose sparkline7d is a
7-element sequence S and every truthy price P (nonzero and not NaN), a merge
carrying that asset's id and price P but no sparkline7d yields the 7-element
sparkline S[1:] + [P]. -/
theorem c1_price_shift (st : CryptoState) (p : AssetUpdatePayload) (i : Nat)
    (a : CryptoAsset) (v : JsNum)
    (hfind : st.assets.findIdx? (fun b => b.id == p.id) = some i)
    (hget : st.assets[i]? = some a)
    (hlen : a.sparkline7d.length = 7)
    (hp : p.price = some v) (hv : v.truthy = true) (hs : p.sparkline7d = none) :
    (updateAsset st p).assets[i]?.map (fun b => b.sparkline7d) =
      some (a.sparkline7d.drop 1 ++ [v]) ∧
    (a.sparkline7d.drop 1 ++ [v]).length = 7 := by
  constructor
  · rw [updateAsset_at_index hfind hget, Option.map_some',
      mergeAsset_sparkline_shift hp hv hs]
  · simp [List.length_drop, hlen]

/-- C1 witness: the amended shift at the concrete scenario input (price 8). -/
theorem c1_witness :
    (updateAsset btcState { id := "bitcoin", price := some (JsNum.num 8) }).assets[0]?.map
        (fun b => b.sparkline7d) =
      some (btcAsset.sparkline7d.drop 1 ++ [JsNum.num 8]) ∧
    (btcAsset.sparkline7d.drop 1 ++ [JsNum.num 8]).length = 7 :=
  c1_price_shift btcState { id := "bitcoin", price := some (JsNum.num 8) } 0 btcAsset
    (JsNum.num 8) (by decide) (by decide) (by decide) rfl (by decide) rfl

/-- C2 counterexample: from a state satisfying the 7-element invariant, a
merge carrying an explicit 3-element sparkline7d leaves an asset with a
3-element sparkline (the invariant is not preserved), and a merge carrying
price 0 sets the asset's price to 0 while the last sparkline element stays
7: the last element does not equal the latest observed price. -/
theorem c2_counterexample :
    (∀ a ∈ btcState.assets, a.sparkline7d.length = 7) ∧
    (∀ b ∈ (updateAsset btcState
        { id := "bitcoin",
          sparkline7d := some [JsNum.num 1, JsNum.num 2, JsNum.num 3] }).assets,
      b.sparkline7d.length = 3) ∧
    ((updateAsset btcState { id := "bitcoin", price := some (JsNum.num 0) }).assets.map
        (fun b => (b.price, b.sparkline7d.getLast?)) =
      [(JsNum.num 0, some (JsNum.num 7))]) ∧
    JsNum.num 0 ≠ JsNum.num 7 := by
  refine ⟨by decide, by decide, by decide, by decide⟩

/-- C2 (amended): a merge whose sparkline7d field, when present, has exactly
7 elements preserves the 7-element invariant; and after a merge carrying a
truthy price (nonzero, not NaN) and no explicit sparkline7d, the matched
asset's last sparkline element equals that price. -/
theorem c2_sparkline_invariant (st : CryptoState) (p : AssetUpdatePayload)
    (hsp : ∀ l, p.sparkline7d = some l → l.length = 7)
    (hinv : ∀ a ∈ st.assets, a.sparkline7d.length = 7) :
    (∀ b ∈ (updateAsset st p).assets, b.sparkline7d.length = 7) ∧
    (∀ i a v, st.assets.findIdx? (fun b => b.id == p.id) = some i →
      st.assets[i]? = some a → p.price = some v → v.truthy = true →
      p.sparkline7d = none →
      (updateAsset st p).assets[i]?.map (fun b => b.sparkline7d.getLast?) =
        some (some v)) := by
  constructor
  · intro b hb
    rcases updateAsset_cases st p with h | ⟨i, a, hfind, hget, h⟩
    · rw [h] at hb
      exact hinv b hb
    · rw [h] at hb
      rcases List.mem_or_eq_of_mem_set hb with hb' | rfl
      · exact hinv b hb'
      · have h7 := hinv a (List.getElem?_mem hget)
        unfold mergeAsset
        split
        · simp only [List.length_append, List.length_drop, List.length_cons,
            List.length_nil, h7]
        · simp only [applyPayload]
          cases hs : p.sparkline7d with
          | none => simpa using h7
          | some l => simpa using hsp l hs
  · intro i a v hfind hget hp hv hs
    rw [updateAsset_at_index hfind hget, Option.map_some',
      mergeAsset_sparkline_shift hp hv hs]
    simp [List.getLast?_concat]

/-- C2 witness: the amended invariant at the concrete scenario input. -/
theorem c2_witness :
    (∀ b ∈ (updateAsset btcState { id := "bitcoin", price := some (JsNum.num 8) }).assets,
      b.sparkline7d.length = 7) ∧
    (∀ i a v,
      btcState.assets.findIdx?
        (fun b => b.id == ({ id := "bitcoin", price := some (JsNum.num 8) } :
          AssetUpdatePayload).id) = some i →
      btcState.assets[i]? = some a →
      ({ id := "bitcoin", price := some (JsNum.num 8) } : AssetUpdatePayload).price =
        some v → v.truthy = true →
      ({ id := "bitcoin", price := some (JsNum.num 8) } : AssetUpdatePayload).sparkline7d =
        none →
      (updateAsset btcState { id := "bitcoin", price := some (JsNum.num 8) }).assets[i]?.map
          (fun b => b.sparkline7d.getLast?) = some (some v)) :=
  c2_sparkline_invariant btcState { id := "bitcoin", price := some (JsNum.num 8) }
    (by simp) (by decide)

/-- C5: a merge whose sparkline7d field is present replaces the matched
asset's sparkline verbatim, regardless of prior contents, with no FIFO
shift. -/
theorem c5_sparkline_replace (st : CryptoState) (p : AssetUpdatePayload) (i : Nat)
    (a : CryptoAsset) (l : List JsNum)
    (hfind : st.assets.findIdx? (fun b => b.id == p.id) = some i)
    (hget : st.assets[i]? = some a)
    (hs : p.sparkline7d = some l) :
    (updateAsset st p).assets[i]?.map (fun b => b.sparkline7d) = some l := by
  rw [updateAsset_at_index hfind hget, Option.map_some',
    mergeAsset_sparkline_replace hs]

/-- C5 witness: verbatim replacement at a concrete input whose supplied
sparkline has a different length and unrelated contents, with the price also
present. -/
theorem c5_witness :
    (updateAsset btcState
      { id := "bitcoin", price := some (JsNum.num 8),
        sparkline7d := some [JsNum.num 9, JsNum.num 10] }).assets[0]?.map
        (fun b => b.sparkline7d) = some [JsNum.num 9, JsNum.num 10] :=
  c5_sparkline_replace btcState
    { id := "bitcoin", price := some (JsNum.num 8),
      sparkline7d := some [JsNum.num 9, JsNum.num 10] }
    0 btcAsset [JsNum.num 9, JsNum.num 10] (by decide) (by decide) rfl

/-- C6: a merge whose id matches no asset in the collection is a no-op: the
whole store state, assets, status and error alike, is returned unchanged. -/
theorem c6_unknown_id_noop (st : CryptoState) (p : AssetUpdatePayload)
    (h : ∀ a ∈ st.assets, a.id ≠ p.id) : updateAsset st p = st := by
  have hfind : st.assets.findIdx? (fun b => b.id == p.id) = none := by
    rw [List.findIdx?_eq_none_iff]
    intro x hx
    simpa [beq_eq_false_iff_ne] using h x hx
  simp only [updateAsset, hfind]

/-- C6 witness: a merge for the unknown id "ethereum" leaves the concrete
scenario store unchanged. -/
theorem c6_witness :
    updateAsset btcState { id := "ethereum", price := some (JsNum.num 8) } = btcState :=
  c6_unknown_id_noop btcState { id := "ethereum", price := some (JsNum.num 8) }
    (by decide)

/-- C10: a merge whose id matches an asset modifies only that asset; the
collection's length and the entries at every other position, the store's
status and error, and within the matched asset every field absent from the
payload (and every field the payload type cannot carry) keep their prior
values; the only field that can change without being present is sparkline7d,
via the price-triggered shift, and it too is untouched when neither a price
nor a sparkline is supplied. -/
theorem c10_merge_is_local (st : CryptoState) (p : AssetUpdatePayload) (i : Nat)
    (a : CryptoAsset)
    (hfind : st.assets.findIdx? (fun b => b.id == p.id) = some i)
    (hget : st.assets[i]? = some a) :
    (updateAsset st p).assets.length = st.assets.length ∧
    (∀ j, j ≠ i → (updateAsset st p).assets[j]? = st.assets[j]?) ∧
    (updateAsset st p).status = st.status ∧
    (updateAsset st p).error = st.error ∧
    (updateAsset st p).assets[i]? = some (mergeAsset a p) ∧
    (mergeAsset a p).id = a.id ∧
    (mergeAsset a p).name = a.name ∧
    (mergeAsset a p).symbol = a.symbol ∧
    (mergeAsset a p).logo = a.logo ∧
    (mergeAsset a p).marketCap = a.marketCap ∧
    (mergeAsset a p).circulatingSupply = a.circulatingSupply ∧
    (mergeAsset a p).maxSupply = a.maxSupply ∧
    (p.price = none → (mergeAsset a p).price = a.price) ∧
    (p.percentChange1h = none → (mergeAsset a p).percentChange1h = a.percentChange1h) ∧
    (p.percentChange24h = none → (mergeAsset a p).percentChange24h = a.percentChange24h) ∧
    (p.percentChange7d = none → (mergeAsset a p).percentChange7d = a.percentChange7d) ∧
    (p.volume24h = none → (mergeAsset a p).volume24h = a.volume24h) ∧
    (p.sparkline7d = none → p.price = none →
      (mergeAsset a p).sparkline7d = a.sparkline7d) := by
  have hid : a.id = p.id := by
    have := pred_of_findIdx?_getElem? hfind hget
    simpa [beq_iff_eq] using this
  have heq := updateAsset_found hfind hget
  refine ⟨?_, ?_, ?_, ?_, updateAsset_at_index hfind hget, ?_, ?_, ?_, ?_, ?_, ?_, ?_,
    ?_, ?_, ?_, ?_, ?_, ?_⟩
  · rw [heq]
    exact List.length_set st.assets i (mergeAsset a p)
  · intro j hj
    rw [heq]
    exact List.getElem?_set_ne (fun h => hj h.symm)
  · rw [heq]
  · rw [heq]
  · unfold mergeAsset
    split <;> simp [applyPayload, hid]
  · unfold mergeAsset
    split <;> simp [applyPayload]
  · unfold mergeAsset
    split <;> simp [applyPayload]
  · unfold mergeAsset
    split <;> simp [applyPayload]
  · unfold mergeAsset
    split <;> simp [applyPayload]
  · unfold mergeAsset
    split <;> simp [applyPayload]
  · unfold mergeAsset
    split <;> simp [applyPayload]
  · intro hp
    unfold mergeAsset
    split <;> simp [applyPayload, hp]
  · intro hp
    unfold mergeAsset
    split <;> simp [applyPayload, hp]
  · intro hp
    unfold mergeAsset
    split <;> simp [applyPayload, hp]
  · intro hp
    unfold mergeAsset
    split <;> simp [applyPayload, hp]
  · intro hp
    unfold mergeAsset
    split <;> simp [applyPayload, hp]
  · intro hs hp
    unfold mergeAsset
    simp [applyPayload, optNumTruthy, hp, hs]

/-- C10 witness: locality of the merge at the concrete scenario input. -/
theorem c10_witness :
    (updateAsset btcState { id := "bitcoin", price := some (JsNum.num 8) }).assets.length =
      btcState.assets.length ∧
    (∀ j, j ≠ 0 →
      (updateAsset btcState { id := "bitcoin", price := some (JsNum.num 8) }).assets[j]? =
        btcState.assets[j]?) ∧
    (updateAsset btcState { id := "bitcoin", price := some (JsNum.num 8) }).status =
      btcState.status ∧
    (updateAsset btcState { id := "bitcoin", price := some (JsNum.num 8) }).error =
      btcState.error ∧
    (updateAsset btcState { id := "bitcoin", price := some (JsNum.num 8) }).assets[0]? =
      some (mergeAsset btcAsset { id := "bitcoin", price := some (JsNum.num 8) }) ∧
    (mergeAsset btcAsset { id := "bitcoin", price := some (JsNum.num 8) }).id =
      btcAsset.id ∧
    (mergeAsset btcAsset { id := "bitcoin", price := some (JsNum.num 8) }).name =
      btcAsset.name ∧
    (mergeAsset btcAsset { id := "bitcoin", price := some (JsNum.num 8) }).symbol =
      btcAsset.symbol ∧
    (mergeAsset btcAsset { id := "bitcoin", price := some (JsNum.num 8) }).logo =
      btcAsset.logo ∧
    (mergeAsset btcAsset { id := "bitcoin", price := some (JsNum.num 8) }).marketCap =
      btcAsset.marketCap ∧
    (mergeAsset btcAsset
        { id := "bitcoin", price := some (JsNum.num 8) }).circulatingSupply =
      btcAsset.circulatingSupply ∧
    (mergeAsset btcAsset { id := "bitcoin", price := some (JsNum.num 8) }).maxSupply =
      btcAsset.maxSupply ∧
    (({ id := "bitcoin", price := some (JsNum.num 8) } : AssetUpdatePayload).price =
        none →
      (mergeAsset btcAsset { id := "bitcoin", price := some (JsNum.num 8) }).price =
        btcAsset.price) ∧
    (({ id := "bitcoin", price := some (JsNum.num 8) } :
        AssetUpdatePayload).percentChange1h = none →
      (mergeAsset btcAsset
          { id := "bitcoin", price := some (JsNum.num 8) }).percentChange1h =
        btcAsset.percentChange1h) ∧
    (({ id := "bitcoin", price := some (JsNum.num 8) } :
        AssetUpdatePayload).percentChange24h = none →
      (mergeAsset btcAsset
          { id := "bitcoin", price := some (JsNum.num 8) }).percentChange24h =
        btcAsset.percentChange24h) ∧
    (({ id := "bitcoin", price := some (JsNum.num 8) } :
        AssetUpdatePayload).percentChange7d = none →
      (mergeAsset btcAsset
          { id := "bitcoin", price := some (JsNum.num 8) }).percentChange7d =
        btcAsset.percentChange7d) ∧
    (({ id := "bitcoin", price := some (JsNum.num 8) } :
        AssetUpdatePayload).volume24h = none →
      (mergeAsset btcAsset { id := "bitcoin", price := some (JsNum.num 8) }).volume24h =
        btcAsset.volume24h) ∧
    (({ id := "bitcoin", price := some (JsNum.num 8) } :
        AssetUpdatePayload).sparkline7d = none →
      ({ id := "bitcoin", price := some (JsNum.num 8) } : AssetUpdatePayload).price =
        none →
      (mergeAsset btcAsset { id := "bitcoin", price := some (JsNum.num 8) }).sparkline7d =
        btcAsset.sparkline7d) :=
  c10_merge_is_local btcState { id := "bitcoin", price := some (JsNum.num 8) } 0 btcAsset
    (by decide) (by decide)

/-- Auxiliary: lookup after a set on the modelled Map. -/
theorem mapGet_mapSet (m : List (String × String)) (k' v k : String) :
    mapGet (mapSet m k' v) k = if k' = k then some v else mapGet m k := by
  induction m with
  | nil => simp [mapSet, mapGet]
  | cons e rest ih =>
    obtain ⟨ek, ev⟩ := e
    by_cases h1 : ek = k'
    · subst h1
      by_cases h2 : ek = k <;> simp [mapSet, mapGet, h2]
    · by_cases h2 : ek = k
      · subst h2
        simp only [mapSet, if_neg h1, mapGet, if_pos rfl, ih]
        have : ¬ k' = ek := fun h => h1 h.symm
        simp [this]
      · simp [mapSet, mapGet, h1, h2, ih]

/-- Auxiliary: the registry fold never removes a key that is already
resolvable. -/
theorem isSome_mapGet_foldl (l : List CryptoAsset) (m : List (String × String))
    (k : String) (h : (mapGet m k).isSome = true) :
    (mapGet (l.foldl (fun m a => mapSet m (jsToUpper (a.symbol ++ "USDT")) a.id) m)
      k).isSome = true := by
  induction l generalizing m with
  | nil => simpa using h
  | cons b rest ih =>
    simp only [List.foldl_cons]
    apply ih
    rw [mapGet_mapSet]
    split <;> simp [h]

/-- Auxiliary: every asset of the list is resolvable in the map built by
folding the registry insertions over the list, whatever map they started
from. -/
theorem isSome_mapGet_foldl_of_mem (l : List CryptoAsset) (a : CryptoAsset)
    (m : List (String × String)) (ha : a ∈ l) :
    (mapGet (l.foldl (fun m b => mapSet m (jsToUpper (b.symbol ++ "USDT")) b.id) m)
      (jsToUpper (a.symbol ++ "USDT"))).isSome = true := by
  induction l generalizing m with
  | nil => cases ha
  | cons b rest ih =>
    simp only [List.foldl_cons]
    rcases List.mem_cons.mp ha with rfl | ha'
    · apply isSome_mapGet_foldl
      rw [mapGet_mapSet]
      simp
    · exact ih (mapSet m (jsToUpper (b.symbol ++ "USDT")) b.id) ha'

/-- Auxiliary: when the map already binds the key to an id and every asset
of the fold's list that carries the key maps it to the same id, the fold
preserves that binding. -/
theorem mapGet_foldl_preserve (l : List CryptoAsset) (m : List (String × String))
    (k v : String) (hm : mapGet m k = some v)
    (hl : ∀ b ∈ l, jsToUpper (b.symbol ++ "USDT") = k → b.id = v) :
    mapGet (l.foldl (fun m b => mapSet m (jsToUpper (b.symbol ++ "USDT")) b.id) m) k =
      some v := by
  induction l generalizing m with
  | nil => simpa using hm
  | cons b rest ih =>
    simp only [List.foldl_cons]
    apply ih
    · rw [mapGet_mapSet]
      by_cases hk : jsToUpper (b.symbol ++ "USDT") = k
      · rw [if_pos hk, hl b (List.mem_cons_self b rest) hk]
      · rw [if_neg hk]
        exact hm
    · intro c hc hck
      exact hl c (List.mem_cons_of_mem b hc) hck

/-- Auxiliary: the fold resolves the key of any member to that member's id,
provided every member carrying the same key agrees on the id. -/
theorem mapGet_foldl_of_mem_uniq (l : List CryptoAsset) (a : CryptoAsset)
    (m : List (String × String)) (ha : a ∈ l)
    (hu : ∀ b ∈ l, jsToUpper (b.symbol ++ "USDT") = jsToUpper (a.symbol ++ "USDT") →
      b.id = a.id) :
    mapGet (l.foldl (fun m b => mapSet m (jsToUpper (b.symbol ++ "USDT")) b.id) m)
      (jsToUpper (a.symbol ++ "USDT")) = some a.id := by
  induction l generalizing m with
  | nil => cases ha
  | cons b rest ih =>
    simp only [List.foldl_cons]
    rcases List.mem_cons.mp ha with rfl | ha'
    · apply mapGet_foldl_preserve
      · rw [mapGet_mapSet]
        simp
      · intro c hc hck
        exact hu c (List.mem_cons_of_mem a hc) hck
    · exact ih (mapSet m (jsToUpper (b.symbol ++ "USDT")) b.id) ha'
        (fun c hc hck => hu c (List.mem_cons_of_mem b hc) hck)

/-- C9 counterexample: with two assets sharing the trading symbol "BTC",
the list contains the asset (symbol "BTC", id "bitcoin"), yet resolving
"btcusdt" returns "bitcoin2": the later Map.set overwrites the earlier
binding, so resolution does not return the id of every asset carrying the
symbol. -/
theorem c9_counterexample :
    btcAsset ∈ [btcAsset, btc2Asset] ∧
    btcAsset.symbol = "BTC" ∧
    btcAsset.id = "bitcoin" ∧
    mapBinanceSymbolToAssetId (buildRegistry [btcAsset, btc2Asset]) "btcusdt" =
      some "bitcoin2" ∧
    ("bitcoin2" : String) ≠ "bitcoin" := by
  refine ⟨by decide, by decide, by decide, by decide, by decide⟩

/-- C9 (amended): symbol resolution is case-insensitive.  For an asset of
the list on whose registered key all key-sharing assets agree in id (true
in particular when trading symbols are unique), resolving any symbol whose
upper-cased form equals that registered key, built as the upper-cased
asset symbol with the "USDT" suffix, returns that asset's id; without the
agreement condition resolution still succeeds; start (with a non-empty
asset list) installs exactly the registry built from that list; and
concretely, the registry built from the scenario asset with symbol "BTC"
resolves the lower-case frame symbol "btcusdt" to "bitcoin". -/
theorem c9_case_insensitive_resolution (assets : List CryptoAsset) (a : CryptoAsset)
    (s : String) (st : SvcState)
    (ha : a ∈ assets)
    (hs : jsToUpper s = jsToUpper (a.symbol ++ "USDT")) :
    ((∀ b ∈ assets,
        jsToUpper (b.symbol ++ "USDT") = jsToUpper (a.symbol ++ "USDT") →
        b.id = a.id) →
      mapBinanceSymbolToAssetId (buildRegistry assets) s = some a.id) ∧
    (mapBinanceSymbolToAssetId (buildRegistry assets) s).isSome = true ∧
    (assets ≠ [] → (start assets st).symbolToIdMap = buildRegistry assets) ∧
    mapBinanceSymbolToAssetId (buildRegistry [btcAsset]) "btcusdt" = some "bitcoin" := by
  refine ⟨?_, ?_, ?_, by decide⟩
  · intro hu
    unfold mapBinanceSymbolToAssetId
    rw [hs]
    exact mapGet_foldl_of_mem_uniq assets a [] ha hu
  · unfold mapBinanceSymbolToAssetId
    rw [hs]
    exact isSome_mapGet_foldl_of_mem assets a [] ha
  · intro hne
    unfold start
    have hlen : ¬ assets.length = 0 := by simpa using hne
    simp only [hlen, if_false]
    split <;> rfl

/-- C9 witness: the resolution facts at the concrete scenario registry,
including the returned id under the agreement condition. -/
theorem c9_witness :
    ((∀ b ∈ [btcAsset],
        jsToUpper (b.symbol ++ "USDT") = jsToUpper (btcAsset.symbol ++ "USDT") →
        b.id = btcAsset.id) →
      mapBinanceSymbolToAssetId (buildRegistry [btcAsset]) "BtcUsdt" =
        some btcAsset.id) ∧
    (mapBinanceSymbolToAssetId (buildRegistry [btcAsset]) "BtcUsdt").isSome = true ∧
    ([btcAsset] ≠ [] →
      (start [btcAsset]
          { ws := false, initialAssets := [], symbolToIdMap := [],
            pending := [] }).symbolToIdMap = buildRegistry [btcAsset]) ∧
    mapBinanceSymbolToAssetId (buildRegistry [btcAsset]) "btcusdt" = some "bitcoin" :=
  c9_case_insensitive_resolution [btcAsset] btcAsset "BtcUsdt"
    { ws := false, initialAssets := [], symbolToIdMap := [], pending := [] }
    (by decide) (by decide)

/-- C7 counterexample: an asset whose id is the empty string makes its
symbol resolve in the registry, yet handleMessage emits no merge payload:
the code's falsy-string guard on the resolved id drops an empty-string id
the same way it drops an unresolved symbol. -/
theorem c7_counterexample :
    mapBinanceSymbolToAssetId (buildRegistry [noIdAsset]) "BTCUSDT" = some "" ∧
    handleMessage (buildRegistry [noIdAsset]) (InboundFrame.parsed (some btcTicker)) =
      none := by
  refine ⟨by decide, by decide⟩

/-- C7 (amended): every well-formed ticker frame whose symbol resolves to a
non-empty (truthy) asset id produces exactly one merge payload carrying
exactly that id, the numeric parse of c as price, the numeric parse of P as
percentChange24h and the numeric parse of q as volume24h, with every other
optional field absent; concretely, the scenario frame yields the payload
(bitcoin, 8, 1.5, 1000) and merging that payload into the scenario store
yields the sparkline [2, 3, 4, 5, 6, 7, 8]. -/
theorem c7_ticker_merge_event (registry : List (String × String))
    (d : BinanceTickerData) (assetId : String)
    (he : d.e = "24hrTicker")
    (hr : mapBinanceSymbolToAssetId registry d.s = some assetId)
    (hne : assetId ≠ "") :
    handleMessage registry (InboundFrame.parsed (some d)) =
      some { id := assetId
             price := some (parseFloat d.c)
             percentChange1h := none
             percentChange24h := some (parseFloat d.P)
             percentChange7d := none
             volume24h := some (parseFloat d.q)
             sparkline7d := none } ∧
    handleMessage (buildRegistry [btcAsset]) (InboundFrame.parsed (some btcTicker)) =
      some { id := "bitcoin", price := some (JsNum.num 8),
             percentChange24h := some (JsNum.num (Rat.divInt 3 2)),
             volume24h := some (JsNum.num 1000) } ∧
    (updateAsset btcState
        { id := "bitcoin", price := some (JsNum.num 8),
          percentChange24h := some (JsNum.num (Rat.divInt 3 2)),
          volume24h := some (JsNum.num 1000) }).assets.map (fun b => b.sparkline7d) =
      [[JsNum.num 2, JsNum.num 3, JsNum.num 4, JsNum.num 5, JsNum.num 6, JsNum.num 7,
        JsNum.num 8]] := by
  refine ⟨?_, by decide, by decide⟩
  simp [handleMessage, he, hr, hne]

/-- C7 witness: the general payload shape applied at the scenario frame and
registry. -/
theorem c7_witness :
    handleMessage (buildRegistry [btcAsset]) (InboundFrame.parsed (some btcTicker)) =
      some { id := "bitcoin"
             price := some (parseFloat btcTicker.c)
             percentChange1h := none
             percentChange24h := some (parseFloat btcTicker.P)
             percentChange7d := none
             volume24h := some (parseFloat btcTicker.q)
             sparkline7d := none } ∧
    handleMessage (buildRegistry [btcAsset]) (InboundFrame.parsed (some btcTicker)) =
      some { id := "bitcoin", price := some (JsNum.num 8),
             percentChange24h := some (JsNum.num (Rat.divInt 3 2)),
             volume24h := some (JsNum.num 1000) } ∧
    (updateAsset btcState
        { id := "bitcoin", price := some (JsNum.num 8),
          percentChange24h := some (JsNum.num (Rat.divInt 3 2)),
          volume24h := some (JsNum.num 1000) }).assets.map (fun b => b.sparkline7d) =
      [[JsNum.num 2, JsNum.num 3, JsNum.num 4, JsNum.num 5, JsNum.num 6, JsNum.num 7,
        JsNum.num 8]] :=
  c7_ticker_merge_event (buildRegistry [btcAsset]) btcTicker "bitcoin" rfl (by decide)
    (by decide)

/-- C8: a malformed frame, a parsed frame without a data member, a frame
whose event-type discriminator is not "24hrTicker", and a frame whose symbol
does not resolve in the registry all emit no merge payload; handleMessage is
a total function, so no such frame makes the handler throw. -/
theorem c8_bad_frames_dropped (registry : List (String × String))
    (frame : InboundFrame) :
    (frame = InboundFrame.malformed → handleMessage registry frame = none) ∧
    (frame = InboundFrame.parsed none → handleMessage registry frame = none) ∧
    (∀ d, frame = InboundFrame.parsed (some d) → d.e ≠ "24hrTicker" →
      handleMessage registry frame = none) ∧
    (∀ d, frame = InboundFrame.parsed (some d) →
      mapBinanceSymbolToAssetId registry d.s = none →
      handleMessage registry frame = none) := by
  refine ⟨?_, ?_, ?_, ?_⟩
  · rintro rfl
    rfl
  · rintro rfl
    rfl
  · rintro d rfl he
    simp [handleMessage, he]
  · rintro d rfl hr
    by_cases he : d.e = "24hrTicker" <;> simp [handleMessage, he, hr]

/-- C8 witness: the three spec scenarios at concrete inputs against the
scenario registry: a malformed frame, a frame with event type "otherEvent",
and a "24hrTicker" frame for the unregistered symbol "ETHUSDT". -/
theorem c8_witness :
    handleMessage (buildRegistry [btcAsset]) InboundFrame.malformed = none ∧
    handleMessage (buildRegistry [btcAsset])
      (InboundFrame.parsed
        (some { e := "otherEvent", s := "BTCUSDT", c := "8", P := "1.5",
                q := "1000" })) = none ∧
    handleMessage (buildRegistry [btcAsset])
      (InboundFrame.parsed
        (some { e := "24hrTicker", s := "ETHUSDT", c := "8", P := "1.5",
                q := "1000" })) = none :=
  ⟨(c8_bad_frames_dropped (buildRegistry [btcAsset]) InboundFrame.malformed).1 rfl,
   (c8_bad_frames_dropped (buildRegistry [btcAsset])
      (InboundFrame.parsed
        (some { e := "otherEvent", s := "BTCUSDT", c := "8", P := "1.5",
                q := "1000" }))).2.2.1
      { e := "otherEvent", s := "BTCUSDT", c := "8", P := "1.5", q := "1000" } rfl
      (by decide),
   (c8_bad_frames_dropped (buildRegistry [btcAsset])
      (InboundFrame.parsed
        (some { e := "24hrTicker", s := "ETHUSDT", c := "8", P := "1.5",
                q := "1000" }))).2.2.2
      { e := "24hrTicker", s := "ETHUSDT", c := "8", P := "1.5", q := "1000" } rfl
      (by decide)⟩

/-- Auxiliary: stop always leaves the handle dropped and the cached asset
list cleared, touching nothing else. -/
theorem stop_eq (st : SvcState) : stop st = { st with ws := false, initialAssets := [] } := by
  unfold stop
  by_cases h : st.ws = true
  · simp [h]
  · simp only [Bool.not_eq_true] at h
    simp [h]

/-- C3: on an unclean close with a non-empty cached asset list, handleClose
drops the handle and appends exactly one reconnect callback with the fixed
5000 millisecond delay, and that callback, fired in an otherwise unchanged
state, re-invokes start on the same cached asset list; a clean close, or a
close with an empty cached asset list, drops the handle and schedules
nothing. -/
theorem c3_reconnect_policy (st : SvcState) (wasClean : Bool) :
    (wasClean = false → st.initialAssets ≠ [] →
      handleClose false st = { st with ws := false, pending := st.pending ++ [5000] } ∧
      (st.pending = [] →
        fireReconnect (handleClose false st) =
          start st.initialAssets { st with ws := false, pending := [] })) ∧
    (wasClean = true → handleClose true st = { st with ws := false }) ∧
    (st.initialAssets = [] → handleClose wasClean st = { st with ws := false }) := by
  refine ⟨?_, ?_, ?_⟩
  · rintro rfl hne
    have hlen : 0 < st.initialAssets.length := List.length_pos.mpr hne
    constructor
    · simp [handleClose, hlen]
    · intro hpd
      simp [handleClose, hlen, fireReconnect, hpd]
  · rintro rfl
    simp [handleClose]
  · intro hia
    simp [handleClose, hia]

/-- C3 witness: the close policy at a concrete active session holding the
scenario asset, with an empty timer queue. -/
theorem c3_witness :
    (handleClose false
        { ws := true, initialAssets := [btcAsset],
          symbolToIdMap := buildRegistry [btcAsset], pending := [] } =
      { ws := false, initialAssets := [btcAsset],
        symbolToIdMap := buildRegistry [btcAsset], pending := [] ++ [5000] }) ∧
    (fireReconnect (handleClose false
        { ws := true, initialAssets := [btcAsset],
          symbolToIdMap := buildRegistry [btcAsset], pending := [] }) =
      start [btcAsset]
        { ws := false, initialAssets := [btcAsset],
          symbolToIdMap := buildRegistry [btcAsset], pending := [] }) ∧
    (handleClose true
        { ws := true, initialAssets := [btcAsset],
          symbolToIdMap := buildRegistry [btcAsset], pending := [] } =
      { ws := false, initialAssets := [btcAsset],
        symbolToIdMap := buildRegistry [btcAsset], pending := [] }) := by
  have h := c3_reconnect_policy
    { ws := true, initialAssets := [btcAsset],
      symbolToIdMap := buildRegistry [btcAsset], pending := [] } false
  have h' := c3_reconnect_policy
    { ws := true, initialAssets := [btcAsset],
      symbolToIdMap := buildRegistry [btcAsset], pending := [] } true
  exact ⟨(h.1 rfl (by decide)).1, (h.1 rfl (by decide)).2 rfl, h'.2.1 rfl⟩

/-- C4: stop is an idempotent no-op on an already-stopped client, never
schedules a reconnection itself, and a reconnect callback scheduled before
the stop finds the cached asset list cleared when it fires, so it does not
resurrect the session: firing it only consumes the timer, the handle stays
dropped and the asset list stays empty. -/
theorem c4_stop_is_safe (st : SvcState) :
    stop (stop st) = stop st ∧
    (stop st).pending = st.pending ∧
    (stop st).initialAssets = [] ∧
    fireReconnect (stop st) = { stop st with pending := st.pending.tail } ∧
    (fireReconnect (stop st)).ws = false ∧
    (fireReconnect (stop st)).initialAssets = [] := by
  have h1 : stop (stop st) = stop st := by
    rw [stop_eq st, stop_eq]
  have h4 : fireReconnect (stop st) = { stop st with pending := st.pending.tail } := by
    rw [stop_eq st]
    unfold fireReconnect
    cases hp : st.pending with
    | nil => simp [hp]
    | cons d rest => simp [hp, start]
  refine ⟨h1, by rw [stop_eq st], by rw [stop_eq st], h4, ?_, ?_⟩
  · rw [h4, stop_eq st]
  · rw [h4, stop_eq st]
